import Mathlib

/-!
Shallow embedding of the `ggb-sdg-data` scripts
(`normalize_sdg_data.py`, `address_geocoding.py`, `convert_sdg_data.py`,
`file_utils.py`, `csv_utils.py`) and proofs about the embedded functions.

A Python `dict` row is modelled as an association list with Python-dict
semantics: assignment to an existing key updates the value in place,
assignment to a fresh key appends at the end, `pop` removes the entry.
CSV-loaded values are strings; pipeline stages may also store integers
(`add_id_column`), `None` (geocoding failures) and integer lists
(SDG conversion), so values are a small sum type.
-/

set_option autoImplicit false

namespace SdgData

/-- Value of one cell of a record: Python `str`, `int`, `None`, or the
list-of-int form produced by the SDG conversion. -/
inductive Value where
  | str (s : String)
  | int (n : Int)
  | intList (l : List Int)
  | null
  deriving DecidableEq, Repr

/-- Python truthiness of a cell value (`bool(v)`): empty string, zero,
empty list and `None` are falsy. -/
def Value.truthy : Value → Bool
  | .str s => !(s == "")
  | .int n => !(n == 0)
  | .intList l => !(l.isEmpty)
  | .null => false

/-- One CSV row, as the Python scripts hold it: an insertion-ordered
mapping from column name to value. -/
abbrev Record := List (String × Value)

/-- Python `k in row`. -/
def containsKey (r : Record) (k : String) : Bool :=
  r.any (fun p => p.1 == k)

/-- Python `row[k]` / `row.get(k)`: `some` value when the key is present. -/
def getValue (r : Record) (k : String) : Option Value :=
  (r.find? (fun p => p.1 == k)).map Prod.snd

/-- Python `row.get(k, default)` where the default is `None`. -/
def pyGet (r : Record) (k : String) : Value :=
  (getValue r k).getD .null

/-- Python `row[k] = v`: update the entry in place when the key exists
(dict keys are unique, so the first occurrence is the occurrence),
otherwise append the new entry at the end (dict insertion order). -/
def setValue : Record → String → Value → Record
  | [], k, v => [(k, v)]
  | p :: t, k, v => if p.1 == k then (p.1, v) :: t else p :: setValue t k v

/-- Python `row.pop(k)` (the removal part): drop the entry for `k`. -/
def eraseKey (r : Record) (k : String) : Record :=
  r.filter (fun p => !(p.1 == k))

/-! Basic lemmas about the record operations. -/

theorem getValue_setValue_self (r : Record) (k : String) (v : Value) :
    getValue (setValue r k v) k = some v := by
  induction r with
  | nil => simp [setValue, getValue, List.find?]
  | cons p t ih =>
    by_cases hp : p.1 == k
    · simp [setValue, getValue, List.find?, hp]
    · simp only [Bool.not_eq_true] at hp
      simpa [setValue, getValue, List.find?, hp] using ih

theorem getValue_setValue_ne (r : Record) (k q : String) (v : Value)
    (hne : q ≠ k) : getValue (setValue r k v) q = getValue r q := by
  induction r with
  | nil =>
    have : ¬(k == q) := by simp; exact fun h => hne h.symm
    simp only [Bool.not_eq_true] at this
    simp [setValue, getValue, List.find?, this]
  | cons p t ih =>
    by_cases hp : p.1 == k
    · have hpk : p.1 = k := by simpa using hp
      have hq : (p.1 == q) = false := by
        simp [hpk]; exact fun h => hne h.symm
      simp [setValue, getValue, List.find?, hp, hq]
    · simp only [Bool.not_eq_true] at hp
      by_cases hq : p.1 == q
      · simp [setValue, getValue, List.find?, hp, hq]
      · simp only [Bool.not_eq_true] at hq
        simpa [setValue, getValue, List.find?, hp, hq] using ih

theorem getValue_eraseKey_ne (r : Record) (k q : String) (hne : q ≠ k) :
    getValue (eraseKey r k) q = getValue r q := by
  induction r with
  | nil => simp [eraseKey, getValue]
  | cons p t ih =>
    by_cases hp : p.1 == k
    · have hpk : p.1 = k := by simpa using hp
      have hq : (p.1 == q) = false := by
        simp [hpk]; exact fun h => hne h.symm
      simpa [eraseKey, getValue, List.filter_cons, List.find?, hp, hq] using ih
    · simp only [Bool.not_eq_true] at hp
      by_cases hq : p.1 == q
      · simp [eraseKey, getValue, List.filter_cons, List.find?, hp, hq]
      · simp only [Bool.not_eq_true] at hq
        simpa [eraseKey, getValue, List.filter_cons, List.find?, hp, hq] using ih

theorem containsKey_eraseKey_self (r : Record) (k : String) :
    containsKey (eraseKey r k) k = false := by
  induction r with
  | nil => simp [eraseKey, containsKey]
  | cons p t ih =>
    unfold containsKey eraseKey at ih
    by_cases hp : p.1 == k
    · simp [eraseKey, containsKey, List.filter_cons, hp, ih]
    · simp only [Bool.not_eq_true] at hp
      simp [eraseKey, containsKey, List.filter_cons, hp, ih]

theorem containsKey_setValue_ne (r : Record) (k q : String) (v : Value)
    (hne : q ≠ k) : containsKey (setValue r k v) q = containsKey r q := by
  induction r with
  | nil =>
    have : (k == q) = false := by simp; exact fun h => hne h.symm
    simp [setValue, containsKey, this]
  | cons p t ih =>
    by_cases hp : p.1 == k
    · have hpk : p.1 = k := by simpa using hp
      have hq : (p.1 == q) = false := by
        simp [hpk]; exact fun h => hne h.symm
      simp [setValue, containsKey, hp, hq]
    · simp only [Bool.not_eq_true] at hp
      by_cases hq : p.1 == q
      · simp [setValue, containsKey, hp, hq]
      · simp only [Bool.not_eq_true] at hq
        unfold containsKey at ih
        simp [setValue, containsKey, hp, hq, ih]

theorem length_setValue (r : Record) (k : String) (v : Value) :
    (setValue r k v).length = if containsKey r k then r.length else r.length + 1 := by
  induction r with
  | nil => simp [setValue, containsKey]
  | cons p t ih =>
    by_cases hp : p.1 == k
    · simp [setValue, containsKey, hp]
    · simp only [Bool.not_eq_true] at hp
      simp only [setValue, containsKey, hp, List.any_cons, Bool.false_or, if_neg Bool.false_ne_true,
        List.length_cons]
      unfold containsKey at ih
      rw [ih]
      by_cases ht : t.any (fun p => p.1 == k)
      · simp [ht]
      · simp only [Bool.not_eq_true] at ht
        simp [ht]

/-! Executable counterparts of the Python string methods the scripts
use, written by structural recursion on the character list so that the
kernel can evaluate them on concrete inputs. -/

/-- Python `str.lower()` (ASCII case mapping, which covers this data). -/
def strLower (s : String) : String :=
  ⟨s.data.map Char.toLower⟩

/-- Python `str.strip()` with no argument: remove leading and trailing
whitespace. -/
def strTrim (s : String) : String :=
  ⟨((s.data.dropWhile Char.isWhitespace).reverse.dropWhile Char.isWhitespace).reverse⟩

/-- Python `s.startswith(p)`. -/
def strStartsWith (s p : String) : Bool :=
  p.data.isPrefixOf s.data

/-- Python `s.split(sep)` for a one-character separator, on the
character list: split at every separator, keeping empty pieces. -/
def splitCharList (sep : Char) : List Char → List (List Char)
  | [] => [[]]
  | c :: t =>
    match splitCharList sep t with
    | h :: rt => if c == sep then [] :: h :: rt else (c :: h) :: rt
    | [] => [[c]]

/-- Python `s.split(sep)` for a one-character separator. -/
def strSplit (sep : Char) (s : String) : List String :=
  (splitCharList sep s.data).map String.mk

/-! Stage 1: `normalize_sdg_data.py`. -/

/-- Body of `lowercase_column_names` for one row: the Python dict
comprehension `{key.lower(): value for key, value in row.items()}`,
built up entry by entry with dict-assignment semantics. -/
def lowercaseRow (row : Record) : Record :=
  row.foldl (fun acc p => setValue acc (strLower p.1) p.2) []

/-- Embeds `lowercase_column_names` of `normalize_sdg_data.py`. -/
def lowercase_column_names (csv_data : List Record) : List Record :=
  csv_data.map lowercaseRow

/-- Loop of `add_id_column`: `for idx, row in enumerate(csv_data, start=1):
row['id'] = idx`. -/
def assignIds : Nat → List Record → List Record
  | _, [] => []
  | idx, row :: rest => setValue row "id" (.int idx) :: assignIds (idx + 1) rest

/-- Embeds `add_id_column` of `normalize_sdg_data.py`: the presence check
reads `csv_data[0].keys()` (the first record only; `[]` when the data is
empty). -/
def add_id_column (csv_data : List Record) : List Record :=
  let fieldnames := match csv_data with
    | [] => ([] : List String)
    | r :: _ => r.map Prod.fst
  if "id" ∈ fieldnames then csv_data else assignIds 1 csv_data

/-- Python `s.replace(',', '.')` on a cell. CSV-loaded coordinate cells
are strings; on a non-string Python would raise, which cannot happen in
the pipeline, so the model keeps the value. -/
def replaceCommaDot : Value → Value
  | .str s => .str ⟨s.data.map (fun c => if c == ',' then '.' else c)⟩
  | v => v

/-- Body of `normalize_lat_lon` for one row: each of `latitude` and
`longitude`, when present, has its commas replaced by periods. -/
def normalizeLatLonRow (row : Record) : Record :=
  let row := match getValue row "latitude" with
    | some v => setValue row "latitude" (replaceCommaDot v)
    | none => row
  match getValue row "longitude" with
    | some v => setValue row "longitude" (replaceCommaDot v)
    | none => row

/-- Embeds `normalize_lat_lon` of `normalize_sdg_data.py`. -/
def normalize_lat_lon (csv_data : List Record) : List Record :=
  csv_data.map normalizeLatLonRow

/-- Python `v.startswith('https://')` for a cell value. -/
def startsWithHttps : Value → Bool
  | .str s => strStartsWith s "https://"
  | _ => false

/-- Python f-string `f"https://{domain}"` for the string cells the
pipeline feeds it. -/
def prependHttps : Value → Value
  | .str s => .str ("https://" ++ s)
  | v => v

/-- Body of `rename_homepage_and_create_website` for one row:
`row['domain'] = row.pop('website')`, then `row['homepage']` is the
domain with `https://` prepended when the domain is truthy and does not
already start with `https://`, else the domain itself. -/
def renameWebsiteRow (row : Record) : Record :=
  match getValue row "website" with
  | none => row
  | some v =>
    let row := setValue (eraseKey row "website") "domain" v
    let homepage := if v.truthy && !(startsWithHttps v) then prependHttps v else v
    setValue row "homepage" homepage

/-- Embeds `rename_homepage_and_create_website` of
`normalize_sdg_data.py`. -/
def rename_homepage_and_create_website (csv_data : List Record) : List Record :=
  csv_data.map renameWebsiteRow

/-- Body of `rename_address_to_street_address` for one row:
`row['street_address'] = row.pop('address')` when `address` is present. -/
def renameAddressRow (row : Record) : Record :=
  match getValue row "address" with
  | none => row
  | some v => setValue (eraseKey row "address") "street_address" v

/-- Embeds `rename_address_to_street_address` of
`normalize_sdg_data.py`. -/
def rename_address_to_street_address (csv_data : List Record) : List Record :=
  csv_data.map renameAddressRow

/-- Python `value.strip().lower()` used to normalize lookup keys.
Non-string cells cannot reach this call from CSV data. -/
def normKey : Value → String
  | .str s => strLower (strTrim s)
  | _ => ""

/-- The cover lookup table: a Python dict from normalized key to the
registered `cover_image_id` cell, with the same entry semantics as a
record. -/
abbrev Table := List (String × Value)

/-- Loop body of the lookup-table build in `add_cover_image_id`:
register the row's normalized `name`, then its normalized `domain`,
each only when truthy, both mapping to `row.get('cover_image_id')`. -/
def registerCoverRow (tbl : Table) (row : Record) : Table :=
  let tbl := if (pyGet row "name").truthy then
      setValue tbl (normKey (pyGet row "name")) (pyGet row "cover_image_id")
    else tbl
  if (pyGet row "domain").truthy then
    setValue tbl (normKey (pyGet row "domain")) (pyGet row "cover_image_id")
  else tbl

/-- The `cover_lookup` dict of `add_cover_image_id`, built over all
cover rows in order. -/
def build_cover_lookup (cover_csv_data : List Record) : Table :=
  cover_csv_data.foldl registerCoverRow []

/-- Candidate `cover_image_id` for one input row, mirroring the
`if 'name' in row and ... in cover_lookup: ... elif 'domain' in row ...`
chain; `Value.null` stands for the Python `None` initializer. -/
def coverIdFor (tbl : Table) (row : Record) : Value :=
  if containsKey row "name" && containsKey tbl (normKey (pyGet row "name")) then
    (getValue tbl (normKey (pyGet row "name"))).getD .null
  else if containsKey row "domain" && containsKey tbl (normKey (pyGet row "domain")) then
    (getValue tbl (normKey (pyGet row "domain"))).getD .null
  else .null

/-- Enrichment of one input row: `if cover_image_id:
row['cover_image_id'] = cover_image_id`. -/
def enrichRow (tbl : Table) (row : Record) : Record :=
  let cid := coverIdFor tbl row
  if cid.truthy then setValue row "cover_image_id" cid else row

/-- Embeds `add_cover_image_id` of `normalize_sdg_data.py`. -/
def add_cover_image_id (input_csv_data cover_csv_data : List Record) : List Record :=
  let tbl := build_cover_lookup cover_csv_data
  input_csv_data.map (enrichRow tbl)

/-! Stage 2: `address_geocoding.py`. -/

/-- Outcome of one call to the geocoding provider
(`geolocator.geocode(...)`): a location, no match (`None`), or a
`GeocoderTimedOut` exception. -/
inductive GeoOutcome where
  | found (lat lon : Value)
  | notFound
  | timedOut
  deriving DecidableEq, Repr

/-- One request issued to the provider; the source always passes
`timeout=5`. -/
structure GeoRequest where
  address : Value
  timeout : Nat
  deriving DecidableEq, Repr

/-- One entry of the `failed_rows` list built by `geocode_addresses`. -/
structure FailureRecord where
  row_index : Nat
  reason : String
  name : Value
  street_address : Value
  deriving DecidableEq, Repr

/-- Python `('latitude' not in row or not row['latitude'])` (and the same
for `longitude`): the key is absent or its value is falsy. -/
def coordMissing (row : Record) (k : String) : Bool :=
  match getValue row k with
  | none => true
  | some v => !v.truthy

/-- The `name` field of a failure entry:
`row.get("name", "Unknown name")`. -/
def failureName (row : Record) : Value :=
  (getValue row "name").getD (.str "Unknown name")

/-- Body of the `geocode_addresses` loop for one row at 1-based index
`idx`, instrumented with the list of provider requests it issues.
Returns (updated row, failure entries appended, requests issued). -/
def geocodeRow (provider : Value → GeoOutcome) (idx : Nat) (row : Record) :
    Record × List FailureRecord × List GeoRequest :=
  if coordMissing row "latitude" && coordMissing row "longitude" then
    match getValue row "street_address" with
    | some addr =>
      if addr.truthy then
        match provider addr with
        | .found lat lon =>
          (setValue (setValue row "latitude" lat) "longitude" lon, [], [⟨addr, 5⟩])
        | .notFound =>
          (setValue (setValue row "latitude" .null) "longitude" .null,
           [⟨idx, "Unknown address(format?)", failureName row, addr⟩], [⟨addr, 5⟩])
        | .timedOut =>
          (setValue (setValue row "latitude" .null) "longitude" .null,
           [⟨idx, "Timeout", failureName row, addr⟩], [⟨addr, 5⟩])
      else (row, [], [])
    | none => (row, [], [])
  else (row, [], [])

/-- The `for index, row in enumerate(csv_data, start=1)` loop of
`geocode_addresses`, carrying the running index. -/
def geocodeAux (provider : Value → GeoOutcome) :
    Nat → List Record → List Record × List FailureRecord × List GeoRequest
  | _, [] => ([], [], [])
  | idx, row :: rest =>
    let step := geocodeRow provider idx row
    let tail := geocodeAux provider (idx + 1) rest
    (step.1 :: tail.1, step.2.1 ++ tail.2.1, step.2.2 ++ tail.2.2)

/-- Embeds `geocode_addresses` of `address_geocoding.py`: returns the
updated data and the `failed_rows` list. -/
def geocode_addresses (provider : Value → GeoOutcome) (csv_data : List Record) :
    List Record × List FailureRecord :=
  let t := geocodeAux provider 1 csv_data
  (t.1, t.2.1)

/-- Requests issued to the provider over a whole run, in order. -/
def geocodeRequests (provider : Value → GeoOutcome) (csv_data : List Record) :
    List GeoRequest :=
  (geocodeAux provider 1 csv_data).2.2

/-- Python loop that transforms each element and raises on failure:
`none` as soon as any element fails, otherwise the list of results. -/
def mapOrAbort {α β : Type} (f : α → Option β) : List α → Option (List β)
  | [] => some []
  | a :: t =>
    match f a with
    | none => none
    | some b => (mapOrAbort f t).map (fun r => b :: r)

/-! Stage 3: `convert_sdg_data.py`. -/

/-- Digits-only part of Python `int()`: `some` of the decimal value when
the string is non-empty and all ASCII digits. -/
def pyDigits (s : String) : Option Nat :=
  if !s.data.isEmpty && s.data.all Char.isDigit then
    some (s.data.foldl (fun n c => n * 10 + (c.toNat - 48)) 0)
  else none

/-- Python `int(s)` on the token strings this pipeline feeds it:
surrounding whitespace is ignored, an optional sign precedes a non-empty
run of decimal digits; anything else raises `ValueError` (`none`). -/
def pyInt (s : String) : Option Int :=
  let t := strTrim s
  if strStartsWith t "+" then (pyDigits ⟨t.data.drop 1⟩).map Int.ofNat
  else if strStartsWith t "-" then (pyDigits ⟨t.data.drop 1⟩).map (fun n => -(Int.ofNat n))
  else (pyDigits t).map Int.ofNat

/-- The list comprehension
`[int(sdg.strip()) for sdg in row['SDGs'].split(',')]`;
`none` when any token fails to parse (Python raises, the run aborts). -/
def parseSdgs (s : String) : Option (List Int) :=
  mapOrAbort (fun tok => pyInt (strTrim tok)) (strSplit ',' s)

/-- Body of the `convert_csv_to_json` loop for one row: the `SDGs`
field (that exact capitalization), when present and truthy, is replaced
by the parsed integer list; a parse failure (or a non-string `SDGs`
value, where Python would raise) aborts. -/
def convertRow (row : Record) : Option Record :=
  match getValue row "SDGs" with
  | some v =>
    if v.truthy then
      match v with
      | .str s => (parseSdgs s).map (fun l => setValue row "SDGs" (.intList l))
      | _ => none
    else some row
  | none => some row

/-- Embeds the record-processing part of `convert_csv_to_json` of
`convert_sdg_data.py`: all rows are converted before anything is
serialized, and any row failure aborts the whole run with no output
(`none`). -/
def convert_csv_to_json (records : List Record) : Option (List Record) :=
  mapOrAbort convertRow records

/-! Stage 4: `write_csv` of `file_utils.py` (identical logic in
`csv_utils.py`). -/

/-- The CSV file produced by a successful write: header plus the cell
rows in header order. -/
structure CsvFile where
  header : List String
  rows : List (List Value)
  deriving DecidableEq, Repr

/-- One `csv.DictWriter` row write with the default
`extrasaction='raise'`: fails when the row holds a key outside the
fieldnames; missing fields are filled with the default `restval`
(`None`). -/
def writeRow (fieldnames : List String) (row : Record) : Option (List Value) :=
  if row.all (fun p => p.1 ∈ fieldnames) then
    some (fieldnames.map (fun k => pyGet row k))
  else none

/-- Embeds `write_csv`: `none` models the `except`/`sys.exit` abort;
`some none` models "no file written" (empty data skips the whole
write); `some (some f)` is a completed file whose header is
`csv_data[0].keys()`. -/
def write_csv (csv_data : List Record) : Option (Option CsvFile) :=
  match csv_data with
  | [] => some none
  | first :: rest =>
    let fieldnames := first.map Prod.fst
    (mapOrAbort (writeRow fieldnames) (first :: rest)).map (fun rows => some ⟨fieldnames, rows⟩)

/-! Shared helper lemmas. -/

theorem mapOrAbort_eq_none_of_mem {α β : Type} (f : α → Option β) (l : List α)
    (x : α) (hx : x ∈ l) (hf : f x = none) : mapOrAbort f l = none := by
  induction l with
  | nil => cases hx
  | cons a t ih =>
    rcases List.mem_cons.mp hx with h | h
    · subst h
      simp [mapOrAbort, hf]
    · unfold mapOrAbort
      cases hfa : f a with
      | none => rfl
      | some b => simp [ih h]

theorem getValue_foldl_setValue (ps : List (String × Value)) (acc : Record) (q : String) :
    getValue (ps.foldl (fun a p => setValue a p.1 p.2) acc) q =
      match ps.reverse.find? (fun p => p.1 == q) with
      | some p => some p.2
      | none => getValue acc q := by
  induction ps generalizing acc with
  | nil => simp
  | cons p t ih =>
    simp only [List.foldl_cons, List.reverse_cons, List.find?_append]
    rw [ih]
    cases hfind : t.reverse.find? (fun p => p.1 == q) with
    | some r => simp [Option.or]
    | none =>
      simp only [Option.or]
      by_cases hp : p.1 == q
      · have hpq : p.1 = q := by simpa using hp
        simp only [List.find?, hp, cond_true]
        rw [← hpq, getValue_setValue_self]
      · simp only [Bool.not_eq_true] at hp
        simp only [List.find?, hp, cond_false, List.find?_nil]
        rw [getValue_setValue_ne]
        intro h
        rw [h] at hp
        simp at hp

theorem length_assignIds (l : List Record) (idx : Nat) :
    (assignIds idx l).length = l.length := by
  induction l generalizing idx with
  | nil => rfl
  | cons row rest ih => simp [assignIds, ih]

theorem length_geocodeAux (provider : Value → GeoOutcome) (l : List Record) (idx : Nat) :
    (geocodeAux provider idx l).1.length = l.length := by
  induction l generalizing idx with
  | nil => rfl
  | cons row rest ih => simp [geocodeAux, ih]

theorem assignIds_getElem (l : List Record) (start i : Nat) (hi : i < l.length) :
    (assignIds start l)[i]? = some (setValue (l.get ⟨i, hi⟩) "id" (Value.int (start + i))) := by
  induction l generalizing start i with
  | nil => exact absurd hi (Nat.not_lt_zero i)
  | cons row rest ih =>
    cases i with
    | zero => simp [assignIds]
    | succ n =>
      have hn : n < rest.length := Nat.lt_of_succ_lt_succ hi
      simp only [assignIds, List.getElem?_cons_succ]
      rw [ih (start + 1) n hn]
      have hg : (row :: rest).get ⟨n + 1, hi⟩ = rest.get ⟨n, hn⟩ := rfl
      rw [hg]
      congr 3
      omega

/-- Claim C3: for every record with a `website` field, the record gets a
`domain` field equal to the original website value (the `website` key is
removed) and a `homepage` field equal to `https://` prepended to the
domain when the domain is non-empty and does not already start with
`https://`, and equal to the domain unchanged otherwise; records without
a `website` field are unchanged. -/
theorem C3_website_homepage_normalization (row : Record) :
    (getValue row "website" = none → renameWebsiteRow row = row) ∧
    (∀ w, getValue row "website" = some (Value.str w) →
      getValue (renameWebsiteRow row) "domain" = some (Value.str w) ∧
      containsKey (renameWebsiteRow row) "website" = false ∧
      getValue (renameWebsiteRow row) "homepage" =
        some (if w ≠ "" ∧ strStartsWith w "https://" = false
          then Value.str ("https://" ++ w) else Value.str w)) := by
  constructor
  · intro h
    simp [renameWebsiteRow, h]
  · intro w hw
    unfold renameWebsiteRow
    rw [hw]
    refine ⟨?_, ?_, ?_⟩
    · rw [getValue_setValue_ne _ _ _ _ (by decide)]
      exact getValue_setValue_self _ _ _
    · rw [containsKey_setValue_ne _ _ _ _ (by decide),
        containsKey_setValue_ne _ _ _ _ (by decide)]
      exact containsKey_eraseKey_self _ _
    · rw [getValue_setValue_self]
      by_cases h1 : w = "" <;> by_cases h2 : strStartsWith w "https://" <;>
        simp [Value.truthy, startsWithHttps, prependHttps, h1, h2]

/-- Witness for C3 at a concrete record, reproducing the spec examples. -/
theorem C3_website_homepage_witness :
    getValue (renameWebsiteRow [("website", Value.str "example.org")]) "domain" =
      some (Value.str "example.org") ∧
    containsKey (renameWebsiteRow [("website", Value.str "example.org")]) "website" = false ∧
    getValue (renameWebsiteRow [("website", Value.str "example.org")]) "homepage" =
      some (Value.str "https://example.org") := by
  have h := (C3_website_homepage_normalization [("website", Value.str "example.org")]).2
    "example.org" (by decide)
  refine ⟨h.1, h.2.1, ?_⟩
  rw [h.2.2]
  decide

/-- Claim C9: if a record contains two or more keys that become equal
after lowercasing, the lowercasing collapses them into one key holding
the value of whichever such key comes last in the record's key order
(the value at any key of the output is the value of the last input entry
whose lowercased key matches), and the output can have strictly fewer
columns than the input. -/
theorem C9_lowercase_last_key_wins (row : Record) (q : String) :
    getValue (lowercaseRow row) q =
      (row.reverse.find? (fun p => strLower p.1 == q)).map Prod.snd ∧
    lowercaseRow [("A", Value.str "1"), ("a", Value.str "2")] = [("a", Value.str "2")] := by
  constructor
  · unfold lowercaseRow
    rw [show row.foldl (fun acc p => setValue acc (strLower p.1) p.2) [] =
        (row.map (fun p => (strLower p.1, p.2))).foldl (fun a p => setValue a p.1 p.2) [] from
      (List.foldl_map (fun p : String × Value => (strLower p.1, p.2))
        (fun a p => setValue a p.1 p.2) row []).symm]
    rw [getValue_foldl_setValue, ← List.map_reverse, List.find?_map]
    have hcomp : ((fun p : String × Value => p.1 == q) ∘
        fun p : String × Value => (strLower p.1, p.2)) =
        fun p : String × Value => strLower p.1 == q := rfl
    rw [hcomp]
    cases hf : row.reverse.find? (fun p : String × Value => strLower p.1 == q) with
    | none => simp [hf, getValue]
    | some r => simp [hf]
  · decide

/-- Counterexample to claim C4 as stated: on the sequence
`[{a: "x"}, {id: "99"}]` an `id` column exists (in the second record),
yet the stage is not a no-op and the existing id value is overwritten. -/
theorem C4_counterexample :
    containsKey [("id", Value.str "99")] "id" = true ∧
    add_id_column [[("a", Value.str "x")], [("id", Value.str "99")]] =
      [[("a", Value.str "x"), ("id", Value.int 1)], [("id", Value.int 2)]] ∧
    getValue [("id", Value.int 2)] "id" ≠ getValue [("id", Value.str "99")] "id" := by
  decide

/-- Claim C4 as amended: the presence check inspects only the first
record's keys; if the first record has an `id` key the stage is a no-op,
and otherwise every record (in original order) gets `id` equal to its
1-based position, row count preserved. -/
theorem C4_add_id_first_row_check (d : List Record) :
    (∀ first rest, d = first :: rest → "id" ∈ first.map Prod.fst → add_id_column d = d) ∧
    ("id" ∉ d.headI.map Prod.fst →
      (add_id_column d).length = d.length ∧
      ∀ i, ∀ hi : i < d.length,
        (add_id_column d)[i]? = some (setValue (d.get ⟨i, hi⟩) "id" (Value.int (i + 1)))) := by
  constructor
  · rintro first rest rfl hmem
    simp [add_id_column, hmem]
  · intro hmem
    cases d with
    | nil => exact ⟨rfl, fun i hi => absurd hi (Nat.not_lt_zero i)⟩
    | cons first rest =>
      have hrw : add_id_column (first :: rest) = assignIds 1 (first :: rest) := by
        simp only [List.headI] at hmem
        simp [add_id_column, hmem]
      rw [hrw]
      refine ⟨length_assignIds _ _, fun i hi => ?_⟩
      rw [assignIds_getElem _ _ _ hi]
      congr 3
      omega

/-- Witness for C4 at a concrete one-record sequence without an `id`
column. -/
theorem C4_add_id_witness :
    (add_id_column [[("a", Value.str "x")]])[0]? =
      some (setValue [("a", Value.str "x")] "id" (Value.int 1)) := by
  have h := (C4_add_id_first_row_check [[("a", Value.str "x")]]).2 (by decide)
  simpa using h.2 0 (by decide)

/-- Counterexample to claim C1 as stated: a record whose latitude is
non-empty but whose longitude is empty does not "have both a non-empty
latitude and a non-empty longitude", and its `street_address` is present
and non-empty, so the claim requires exactly one geocode request — yet
the code issues none (the condition requires BOTH coordinates to be
missing or empty) and leaves the record unchanged. -/
theorem C1_counterexample :
    ((pyGet [("latitude", Value.str "1"), ("longitude", Value.str ""),
        ("street_address", Value.str "X")] "latitude").truthy &&
      (pyGet [("latitude", Value.str "1"), ("longitude", Value.str ""),
        ("street_address", Value.str "X")] "longitude").truthy) = false ∧
    (pyGet [("latitude", Value.str "1"), ("longitude", Value.str ""),
      ("street_address", Value.str "X")] "street_address").truthy = true ∧
    geocodeRequests (fun _ => GeoOutcome.found (Value.str "37.4") (Value.str "-122.1"))
      [[("latitude", Value.str "1"), ("longitude", Value.str ""),
        ("street_address", Value.str "X")]] = [] := by
  decide

/-- Claim C1 as amended: a record is sent to the provider only when both
latitude and longitude are missing or empty; a record with at least one
non-empty coordinate is left unchanged, not sent, and not counted as
failure or success. When both coordinates are missing or empty and
`street_address` is present and non-empty, exactly one geocode request
with a 5-second timeout is issued for it; when `street_address` is
missing or empty, the record is left entirely unchanged and no failure
is recorded. -/
theorem C1_geocode_dispatch (provider : Value → GeoOutcome) (idx : Nat) (row : Record) :
    (¬(coordMissing row "latitude" = true ∧ coordMissing row "longitude" = true) →
      geocodeRow provider idx row = (row, [], [])) ∧
    (coordMissing row "latitude" = true → coordMissing row "longitude" = true →
      ∀ addr, getValue row "street_address" = some addr → addr.truthy = true →
        (geocodeRow provider idx row).2.2 = [⟨addr, 5⟩]) ∧
    (coordMissing row "latitude" = true → coordMissing row "longitude" = true →
      getValue row "street_address" = none →
      geocodeRow provider idx row = (row, [], [])) ∧
    (coordMissing row "latitude" = true → coordMissing row "longitude" = true →
      ∀ addr, getValue row "street_address" = some addr → addr.truthy = false →
        geocodeRow provider idx row = (row, [], [])) := by
  refine ⟨?_, ?_, ?_, ?_⟩
  · intro h
    have hc : (coordMissing row "latitude" && coordMissing row "longitude") = false := by
      cases hlat : coordMissing row "latitude" <;>
        cases hlon : coordMissing row "longitude" <;> simp_all
    simp [geocodeRow, hc]
  · intro h1 h2 addr ha ht
    cases hp : provider addr <;> simp [geocodeRow, h1, h2, ha, ht, hp]
  · intro h1 h2 ha
    simp [geocodeRow, h1, h2, ha]
  · intro h1 h2 addr ha ht
    simp [geocodeRow, h1, h2, ha, ht]

/-- Witness for C1 at a concrete record with no coordinates and a
non-empty address: exactly one request, with timeout 5. -/
theorem C1_geocode_witness :
    (geocodeRow (fun _ => GeoOutcome.notFound) 1
      [("street_address", Value.str "X")]).2.2 = [⟨Value.str "X", 5⟩] :=
  (C1_geocode_dispatch (fun _ => GeoOutcome.notFound) 1
    [("street_address", Value.str "X")]).2.1 (by decide) (by decide)
    (Value.str "X") (by decide) (by decide)

theorem geocodeRow_failure_fields (provider : Value → GeoOutcome) (idx : Nat)
    (row : Record) (f : FailureRecord) (hf : f ∈ (geocodeRow provider idx row).2.1) :
    f.row_index = idx ∧ f.name = failureName row ∧
    getValue row "street_address" = some f.street_address := by
  unfold geocodeRow at hf
  by_cases hc : (coordMissing row "latitude" && coordMissing row "longitude") = true
  · rw [if_pos hc] at hf
    cases hs : getValue row "street_address" with
    | none => rw [hs] at hf; simp at hf
    | some addr =>
      rw [hs] at hf
      by_cases ht : addr.truthy = true
      · simp only [ht, if_pos] at hf
        cases hp : provider addr <;> rw [hp] at hf
        · simp at hf
        · simp only [List.mem_singleton] at hf
          subst hf
          exact ⟨rfl, rfl, rfl⟩
        · simp only [List.mem_singleton] at hf
          subst hf
          exact ⟨rfl, rfl, rfl⟩
      · simp only [Bool.not_eq_true] at ht
        simp [ht] at hf
  · rw [if_neg hc] at hf
    simp at hf

theorem geocodeAux_failures (provider : Value → GeoOutcome) (l : List Record) :
    ∀ (start : Nat) (f : FailureRecord), f ∈ (geocodeAux provider start l).2.1 →
      ∃ i, ∃ hi : i < l.length, f.row_index = start + i ∧
        f.name = failureName (l.get ⟨i, hi⟩) ∧
        getValue (l.get ⟨i, hi⟩) "street_address" = some f.street_address := by
  induction l with
  | nil => intro start f hf; simp [geocodeAux] at hf
  | cons row rest ih =>
    intro start f hf
    simp only [geocodeAux, List.mem_append] at hf
    rcases hf with hf | hf
    · obtain ⟨h1, h2, h3⟩ := geocodeRow_failure_fields provider start row f hf
      exact ⟨0, Nat.succ_pos _, by simpa using h1, h2, h3⟩
    · obtain ⟨i, hi, h1, h2, h3⟩ := ih (start + 1) f hf
      refine ⟨i + 1, Nat.succ_lt_succ hi, by omega, h2, h3⟩

/-- Claim C5: when a request is issued (both coordinates missing or
empty, non-empty `street_address`) and the provider finds no location,
both coordinates are set to null and a failure record with reason
"Unknown address(format?)" is appended; on a timeout, both are set to
null and a failure record with reason "Timeout" is appended; every
failure record carries the 1-based position of its record in the
original sequence, the record's name (or "Unknown name" when absent)
and its street_address. -/
theorem C5_failure_records (provider : Value → GeoOutcome) (idx : Nat) (row : Record)
    (addr : Value) (h1 : coordMissing row "latitude" = true)
    (h2 : coordMissing row "longitude" = true)
    (h3 : getValue row "street_address" = some addr) (h4 : addr.truthy = true) :
    (provider addr = .notFound →
      geocodeRow provider idx row =
        (setValue (setValue row "latitude" .null) "longitude" .null,
         [⟨idx, "Unknown address(format?)", failureName row, addr⟩], [⟨addr, 5⟩])) ∧
    (provider addr = .timedOut →
      geocodeRow provider idx row =
        (setValue (setValue row "latitude" .null) "longitude" .null,
         [⟨idx, "Timeout", failureName row, addr⟩], [⟨addr, 5⟩])) ∧
    (∀ (d : List Record) (f : FailureRecord), f ∈ (geocode_addresses provider d).2 →
      ∃ i, ∃ hi : i < d.length, f.row_index = i + 1 ∧
        f.name = failureName (d.get ⟨i, hi⟩) ∧
        getValue (d.get ⟨i, hi⟩) "street_address" = some f.street_address) := by
  refine ⟨?_, ?_, ?_⟩
  · intro hp
    simp [geocodeRow, h1, h2, h3, h4, hp]
  · intro hp
    simp [geocodeRow, h1, h2, h3, h4, hp]
  · intro d f hf
    obtain ⟨i, hi, ha, hb, hc⟩ := geocodeAux_failures provider d 1 f hf
    exact ⟨i, hi, by omega, hb, hc⟩

/-- Witness for C5 at a concrete record whose provider call finds no
location. -/
theorem C5_failure_witness :
    geocodeRow (fun _ => GeoOutcome.notFound) 1 [("street_address", Value.str "X")] =
      (setValue (setValue [("street_address", Value.str "X")] "latitude" .null)
        "longitude" .null,
       [⟨1, "Unknown address(format?)",
         failureName [("street_address", Value.str "X")], Value.str "X"⟩],
       [⟨Value.str "X", 5⟩]) :=
  (C5_failure_records (fun _ => GeoOutcome.notFound) 1 [("street_address", Value.str "X")]
    (Value.str "X") (by decide) (by decide) (by decide) (by decide)).1 rfl

/-- Counterexample to claim C2 as stated: the conversion checks the key
`SDGs` with that exact capitalization, so a record whose field is the
lowercase `sdgs` (the case produced by upstream key-lowercasing) is left
untouched even when non-empty, instead of being replaced by the integer
sequence. -/
theorem C2_counterexample :
    convert_csv_to_json [[("sdgs", Value.str "1, 3,7")]] =
      some [[("sdgs", Value.str "1, 3,7")]] ∧
    Value.str "1, 3,7" ≠ Value.intList [1, 3, 7] := by
  decide

/-- Claim C2 as amended: the field the conversion rewrites is `SDGs`
with that exact capitalization (the raw CSV header), not lowercase
`sdgs`; when present and non-empty its value is replaced by the integers
obtained by splitting on commas and trimming each token; when empty or
absent it is left untouched; every other field keeps its value. -/
theorem C2_sdgs_conversion (row : Record) :
    (getValue row "SDGs" = none → convertRow row = some row) ∧
    (getValue row "SDGs" = some (Value.str "") → convertRow row = some row) ∧
    (∀ s l, getValue row "SDGs" = some (Value.str s) → s ≠ "" → parseSdgs s = some l →
      convertRow row = some (setValue row "SDGs" (Value.intList l))) ∧
    (∀ q r, q ≠ "SDGs" → convertRow row = some r → getValue r q = getValue row q) := by
  refine ⟨?_, ?_, ?_, ?_⟩
  · intro h
    simp [convertRow, h]
  · intro h
    simp [convertRow, h, Value.truthy]
  · intro s l hs hne hp
    have ht : (Value.str s).truthy = true := by simp [Value.truthy, hne]
    simp [convertRow, hs, ht, hp]
  · intro q r hq hr
    unfold convertRow at hr
    cases hv : getValue row "SDGs" with
    | none =>
      rw [hv] at hr
      obtain rfl : row = r := by simpa using hr
      rfl
    | some v =>
      rw [hv] at hr
      dsimp only at hr
      by_cases ht : v.truthy = true
      · rw [if_pos ht] at hr
        cases v with
        | str s =>
          dsimp only at hr
          cases hp : parseSdgs s with
          | none => rw [hp] at hr; simp at hr
          | some l =>
            rw [hp] at hr
            obtain rfl : setValue row "SDGs" (Value.intList l) = r := by simpa using hr
            exact getValue_setValue_ne _ _ _ _ hq
        | int n => simp at hr
        | intList l => simp at hr
        | null => simp at hr
      · simp only [Bool.not_eq_true] at ht
        rw [ht] at hr
        simp only [Bool.false_eq_true, if_false] at hr
        obtain rfl : row = r := by simpa using hr
        rfl

/-- Witness for C2 at the spec's example value, with the `SDGs` key. -/
theorem C2_sdgs_witness :
    convertRow [("SDGs", Value.str "1, 3,7")] =
      some (setValue [("SDGs", Value.str "1, 3,7")] "SDGs" (Value.intList [1, 3, 7])) :=
  (C2_sdgs_conversion [("SDGs", Value.str "1, 3,7")]).2.2.1 "1, 3,7" [1, 3, 7]
    (by decide) (by decide) (by decide)

/-- Claim C7: if any token of a non-empty `SDGs` field in any record
fails to parse as an integer, the whole conversion run aborts and no
JSON output is produced. -/
theorem C7_bad_token_aborts (records : List Record) (row : Record) (s tok : String)
    (hrow : row ∈ records) (hget : getValue row "SDGs" = some (Value.str s))
    (hne : s ≠ "") (htok : tok ∈ strSplit ',' s)
    (hbad : pyInt (strTrim tok) = none) :
    convert_csv_to_json records = none := by
  have hparse : parseSdgs s = none :=
    mapOrAbort_eq_none_of_mem _ _ tok htok hbad
  have hconv : convertRow row = none := by
    have ht : (Value.str s).truthy = true := by simp [Value.truthy, hne]
    simp [convertRow, hget, ht, hparse]
  exact mapOrAbort_eq_none_of_mem _ _ row hrow hconv

/-- Witness for C7: a run with one record whose second SDG token is not
an integer converts to nothing. -/
theorem C7_bad_token_witness :
    convert_csv_to_json [[("SDGs", Value.str "1, x")]] = none :=
  C7_bad_token_aborts [[("SDGs", Value.str "1, x")]] [("SDGs", Value.str "1, x")]
    "1, x" " x" (by decide) (by decide) (by decide) (by decide) (by decide)

/-- Registrations one cover row contributes to the lookup table, in the
order the source performs them: the normalized `name` (when truthy),
then the normalized `domain` (when truthy), each mapped to the row's
`cover_image_id` value. -/
def coverRegistrations (row : Record) : List (String × Value) :=
  (if (pyGet row "name").truthy then
    [(normKey (pyGet row "name"), pyGet row "cover_image_id")] else []) ++
  (if (pyGet row "domain").truthy then
    [(normKey (pyGet row "domain"), pyGet row "cover_image_id")] else [])

theorem registerCoverRow_eq (tbl : Table) (row : Record) :
    registerCoverRow tbl row =
      (coverRegistrations row).foldl (fun a p => setValue a p.1 p.2) tbl := by
  unfold registerCoverRow coverRegistrations
  by_cases h1 : (pyGet row "name").truthy = true <;>
    by_cases h2 : (pyGet row "domain").truthy = true <;> simp [h1, h2]

theorem build_cover_lookup_eq (cover : List Record) :
    ∀ tbl, cover.foldl registerCoverRow tbl =
      ((cover.map coverRegistrations).flatten).foldl (fun a p => setValue a p.1 p.2) tbl := by
  induction cover with
  | nil => intro tbl; rfl
  | cons r t ih =>
    intro tbl
    simp only [List.map_cons, List.flatten_cons, List.foldl_append, List.foldl_cons]
    rw [ih (registerCoverRow tbl r), registerCoverRow_eq]

/-- Claim C6: the lookup-table build registers, for every secondary
record, its lowercased-trimmed name and lowercased-trimmed domain (each
only when non-empty), both mapping to that record's `cover_image_id`,
with later registrations overwriting earlier ones for the same key (the
table's value at any key is the last matching registration); enrichment
looks up the lowercased-trimmed name first, falling back to the
lowercased-trimmed domain, sets `cover_image_id` exactly when a
non-empty id is found, and leaves no-match records without the column;
the primary record `{name: "ACME "}` matches the secondary record
`{name: "Acme", cover_image_id: "7"}`. -/
theorem C6_cover_image_enrichment (cover : List Record) (q : String)
    (tbl : Table) (row : Record) :
    (getValue (build_cover_lookup cover) q =
      ((cover.map coverRegistrations).flatten.reverse.find?
        (fun p => p.1 == q)).map Prod.snd) ∧
    ((containsKey row "name" && containsKey tbl (normKey (pyGet row "name"))) = true →
      enrichRow tbl row =
        (if ((getValue tbl (normKey (pyGet row "name"))).getD .null).truthy then
          setValue row "cover_image_id"
            ((getValue tbl (normKey (pyGet row "name"))).getD .null)
        else row)) ∧
    ((containsKey row "name" && containsKey tbl (normKey (pyGet row "name"))) = false →
      (containsKey row "domain" && containsKey tbl (normKey (pyGet row "domain"))) = true →
      enrichRow tbl row =
        (if ((getValue tbl (normKey (pyGet row "domain"))).getD .null).truthy then
          setValue row "cover_image_id"
            ((getValue tbl (normKey (pyGet row "domain"))).getD .null)
        else row)) ∧
    ((containsKey row "name" && containsKey tbl (normKey (pyGet row "name"))) = false →
      (containsKey row "domain" && containsKey tbl (normKey (pyGet row "domain"))) = false →
      enrichRow tbl row = row) ∧
    add_cover_image_id [[("name", Value.str "ACME ")]]
      [[("name", Value.str "Acme"), ("cover_image_id", Value.str "7")]] =
      [[("name", Value.str "ACME "), ("cover_image_id", Value.str "7")]] := by
  refine ⟨?_, ?_, ?_, ?_, by decide⟩
  · unfold build_cover_lookup
    rw [build_cover_lookup_eq cover [], getValue_foldl_setValue]
    cases hf : (cover.map coverRegistrations).flatten.reverse.find?
        (fun p => p.1 == q) with
    | none => simp [hf, getValue]
    | some p => simp [hf]
  · intro h
    simp [enrichRow, coverIdFor, h]
  · intro h1 h2
    simp [enrichRow, coverIdFor, h1, h2]
  · intro h1 h2
    simp [enrichRow, coverIdFor, h1, h2, Value.truthy]

/-- Witness for C6: a one-entry table built from the normalized name
`acme` enriches the primary record with id "7". -/
theorem C6_cover_image_witness :
    enrichRow [("acme", Value.str "7")] [("name", Value.str "ACME ")] =
      setValue [("name", Value.str "ACME ")] "cover_image_id" (Value.str "7") := by
  have h := (C6_cover_image_enrichment [] "x" [("acme", Value.str "7")]
    [("name", Value.str "ACME ")]).2.1 (by decide)
  rw [h]
  decide

theorem geocodeAux_getElem (provider : Value → GeoOutcome) (l : List Record) :
    ∀ (start i : Nat) (hi : i < l.length),
      (geocodeAux provider start l).1[i]? =
        some ((geocodeRow provider (start + i) (l.get ⟨i, hi⟩)).1) := by
  induction l with
  | nil => intro start i hi; exact absurd hi (Nat.not_lt_zero i)
  | cons row rest ih =>
    intro start i hi
    cases i with
    | zero => simp [geocodeAux]
    | succ n =>
      have hn : n < rest.length := Nat.lt_of_succ_lt_succ hi
      simp only [geocodeAux, List.getElem?_cons_succ]
      rw [ih (start + 1) n hn]
      have hg : (row :: rest).get ⟨n + 1, hi⟩ = rest.get ⟨n, hn⟩ := rfl
      rw [hg]
      congr 3
      omega

/-- Claim C8: every pipeline stage — key lowercasing, sequential-id
assignment, coordinate-decimal normalization, the address and
website/homepage renames, cross-reference enrichment, and geocoding
enrichment — returns a record sequence with exactly as many records as
its input; the geocoded i-th output row is the transform of the i-th
input row, so row order is preserved. -/
theorem C8_stages_preserve_length (d c : List Record) (provider : Value → GeoOutcome) :
    (lowercase_column_names d).length = d.length ∧
    (add_id_column d).length = d.length ∧
    (normalize_lat_lon d).length = d.length ∧
    (rename_homepage_and_create_website d).length = d.length ∧
    (rename_address_to_street_address d).length = d.length ∧
    (add_cover_image_id d c).length = d.length ∧
    ((geocode_addresses provider d).1).length = d.length ∧
    (∀ i, ∀ hi : i < d.length,
      ((geocode_addresses provider d).1)[i]? =
        some ((geocodeRow provider (i + 1) (d.get ⟨i, hi⟩)).1)) := by
  refine ⟨by simp [lowercase_column_names], ?_, by simp [normalize_lat_lon],
    by simp [rename_homepage_and_create_website],
    by simp [rename_address_to_street_address],
    by simp [add_cover_image_id], length_geocodeAux provider d 1, ?_⟩
  · unfold add_id_column
    cases d with
    | nil => rfl
    | cons first rest =>
      by_cases h : "id" ∈ first.map Prod.fst
      · simp [h]
      · simp [h, length_assignIds]
  · intro i hi
    show (geocodeAux provider 1 d).1[i]? = _
    rw [geocodeAux_getElem provider d 1 i hi]
    congr 3
    omega

/-- Witness for C8 at a concrete one-record sequence. -/
theorem C8_stages_witness :
    ((geocode_addresses (fun _ => GeoOutcome.notFound)
      [[("street_address", Value.str "X")]]).1)[0]? =
      some ((geocodeRow (fun _ => GeoOutcome.notFound) 1
        [("street_address", Value.str "X")]).1) :=
  (C8_stages_preserve_length [[("street_address", Value.str "X")]] []
    (fun _ => GeoOutcome.notFound)).2.2.2.2.2.2.2 0 (by decide)

/-- Claim C10: the CSV writer derives the output header solely from the
first record's keys; an empty record sequence writes no file at all;
and any record containing a key absent from the first record's key set
makes the whole write fail and the run abort. -/
theorem C10_write_csv_header (first : Record) (rest : List Record) (row : Record)
    (p : String × Value) :
    (write_csv [] = some none) ∧
    (∀ f, write_csv (first :: rest) = some (some f) → f.header = first.map Prod.fst) ∧
    (row ∈ first :: rest → p ∈ row → p.1 ∉ first.map Prod.fst →
      write_csv (first :: rest) = none) := by
  refine ⟨rfl, ?_, ?_⟩
  · intro f hf
    unfold write_csv at hf
    dsimp only at hf
    cases hm : mapOrAbort (writeRow (first.map Prod.fst)) (first :: rest) with
    | none => rw [hm] at hf; simp at hf
    | some rows =>
      rw [hm] at hf
      simp only [Option.map_some', Option.some.injEq] at hf
      rw [← hf]
  · intro hrow hp hnot
    have hwr : writeRow (first.map Prod.fst) row = none := by
      unfold writeRow
      rw [if_neg]
      intro hall
      exact hnot (of_decide_eq_true (List.all_eq_true.mp hall p hp))
    have hm := mapOrAbort_eq_none_of_mem (writeRow (first.map Prod.fst))
      (first :: rest) row hrow hwr
    unfold write_csv
    dsimp only
    rw [hm]
    rfl

/-- Witness for C10: a second record with a key `b` that the first
record lacks aborts the write. -/
theorem C10_write_csv_witness :
    write_csv [[("a", Value.str "1")], [("a", Value.str "2"), ("b", Value.str "3")]] =
      none :=
  (C10_write_csv_header [("a", Value.str "1")] [[("a", Value.str "2"), ("b", Value.str "3")]]
    [("a", Value.str "2"), ("b", Value.str "3")] ("b", Value.str "3")).2.2
    (by decide) (by decide) (by decide)

end SdgData
